import Mathlib

set_option autoImplicit false

/-!
Shallow embedding of `record_provenance.py`: a utility that resolves container
images to immutable digests via an external inspection command, collects them
into a name-to-digest mapping, and writes the mapping with a UTC timestamp to
a JSON provenance file.
-/

namespace RecordProvenance

/-- Model of the external container-runtime inspection command.  `inspect image
fmt` is the outcome of running the inspection for `image` with format template
`fmt`: `some out` when the command exits with status zero and prints `out` on
standard output, `none` when it exits with a non-zero status (which
`subprocess.run` with `check=True` surfaces as `CalledProcessError`). -/
structure DockerEnv where
  inspect : String → String → Option String

/-- The format template requesting the first entry of the repo-digest list
(the template string uses doubled braces around `index .RepoDigests 0`). -/
def repoDigestsFormat : String := "\x7b\x7bindex .RepoDigests 0\x7d\x7d"

/-- The format template requesting the local image identifier (doubled braces
around `.Id`). -/
def idFormat : String := "\x7b\x7b.Id\x7d\x7d"

/-- Python `str.strip()`: remove whitespace characters from both ends of the
string. -/
def pyStrip (s : String) : String :=
  String.mk (((s.data.dropWhile Char.isWhitespace).reverse.dropWhile Char.isWhitespace).reverse)

/-- Embedding of `get_image_digest`: try the repo-digest lookup first and keep
its stripped output when the command succeeded and the stripped output is
non-empty; otherwise fall back to the image-id lookup, returning its stripped
output on success; if that also fails, return the sentinel
`unknown:` followed by the image reference. -/
def get_image_digest (env : DockerEnv) (image : String) : String :=
  let firstAttempt : Option String :=
    match env.inspect image repoDigestsFormat with
    | some out =>
        let digest := pyStrip out
        if digest ≠ "" then some digest else none
    | none => none
  match firstAttempt with
  | some digest => digest
  | none =>
      match env.inspect image idFormat with
      | some out => pyStrip out
      | none => "unknown:" ++ image

/-- Assignment `d[k] = v` on a Python `dict`, modelled on an ordered
association list: an existing key keeps its position and receives the new
value, a new key is appended at the end. -/
def dictInsert (m : List (String × String)) (k v : String) : List (String × String) :=
  if m.any (fun p => p.1 == k) then
    m.map (fun p => if p.1 = k then (p.1, v) else p)
  else m ++ [(k, v)]

/-- Lookup of key `k` in the ordered association list modelling a dict. -/
def dictFind (m : List (String × String)) (k : String) : Option String :=
  match m with
  | [] => none
  | p :: rest => if p.1 = k then some p.2 else dictFind rest k

/-- The parsed `[green_agent]` table: its `image` key may be absent. -/
structure GreenAgentTable where
  image : Option String

/-- A parsed `[[participants]]` table: its `name` and `image` keys may each be
absent from the file. -/
structure ParticipantTable where
  name : Option String
  image : Option String

/-- A parsed scenario: the `green_agent` table and the `participants` list may
each be absent. -/
structure Scenario where
  green_agent : Option GreenAgentTable
  participants : Option (List ParticipantTable)

/-- Subscript access `tbl[field]` on a parsed table: a missing key raises
`KeyError`, modelled as an `Except.error`. -/
def keyed {α : Type} (field : String) : Option α → Except String α
  | some a => Except.ok a
  | none => Except.error ("KeyError: " ++ field)

/-- One iteration of the participant loop in `collect_image_digests`: read the
`name` and `image` fields (raising `KeyError` when absent), and insert the
resolved digest under `name` unless `image` is the empty string. -/
def participantStep (env : DockerEnv) (digests : List (String × String))
    (participant : ParticipantTable) : Except String (List (String × String)) := do
  let name ← keyed "name" participant.name
  let image ← keyed "image" participant.image
  pure (if image ≠ "" then dictInsert digests name (get_image_digest env image) else digests)

/-- Embedding of `collect_image_digests`: resolve the green agent image under
the fixed key `green_agent`, then fold the participant loop over
`scenario.get("participants", [])`. -/
def collect_image_digests (env : DockerEnv) (scenario : Scenario) :
    Except String (List (String × String)) := do
  let green ← keyed "green_agent" scenario.green_agent
  let green_image ← keyed "image" green.image
  let digests := dictInsert [] "green_agent" (get_image_digest env green_image)
  (scenario.participants.getD []).foldlM (participantStep env) digests

/-- A UTC wall-clock instant as produced by `datetime.now(timezone.utc)`,
truncated to seconds. -/
structure UTCTime where
  year : Nat
  month : Nat
  day : Nat
  hour : Nat
  minute : Nat
  second : Nat

/-- Zero-padded two-digit decimal rendering used by `isoformat` for month,
day, hour, minute and second fields (all below 100 for valid datetimes). -/
def pad2 (n : Nat) : String :=
  String.mk [Nat.digitChar (n / 10), Nat.digitChar (n % 10)]

/-- Zero-padded four-digit decimal rendering used by `isoformat` for the year
(below 10000 for valid datetimes). -/
def pad4 (n : Nat) : String :=
  String.mk [Nat.digitChar (n / 1000), Nat.digitChar (n / 100 % 10),
    Nat.digitChar (n / 10 % 10), Nat.digitChar (n % 10)]

/-- `datetime.isoformat(timespec="seconds")` for a timezone-aware UTC
datetime: date and time separated by `T`, followed by the `+00:00` offset. -/
def isoformatSeconds (t : UTCTime) : String :=
  pad4 t.year ++ "-" ++ pad2 t.month ++ "-" ++ pad2 t.day ++ "T" ++
    pad2 t.hour ++ ":" ++ pad2 t.minute ++ ":" ++ pad2 t.second ++ "+00:00"

/-- Left-to-right scan of Python `str.replace` on character lists, faithful
for non-empty patterns: at skip counter `0`, a position where the pattern
matches emits the replacement and skips the pattern, any other character is
copied; a positive counter skips the remaining matched characters. -/
def replaceAux (pat rep : List Char) : Nat → List Char → List Char
  | _, [] => []
  | 0, c :: rest =>
      if pat.isPrefixOf (c :: rest) then
        rep ++ replaceAux pat rep (pat.length - 1) rest
      else c :: replaceAux pat rep 0 rest
  | Nat.succ k, _ :: rest => replaceAux pat rep k rest

/-- Python `str.replace(pat, rep)` (non-overlapping, left to right), faithful
for non-empty patterns. -/
def pyReplace (s pat rep : String) : String :=
  String.mk (replaceAux pat.data rep.data 0 s.data)

/-- The timestamp string of `write_provenance`:
`datetime.now(timezone.utc).isoformat(timespec="seconds")` with `+00:00`
replaced by `Z`. -/
def timestampString (t : UTCTime) : String :=
  pyReplace (isoformatSeconds t) "+00:00" "Z"

/-- JSON values needed by the provenance document: strings and objects with
ordered fields. -/
inductive JVal where
  | str (s : String)
  | obj (fields : List (String × JVal))

/-- Embedding of `write_provenance`: the JSON document serialized to the
output file, holding the digest mapping under `image_digests` and the
timestamp string under `timestamp`. -/
def write_provenance (image_digests : List (String × String)) (t : UTCTime) : JVal :=
  JVal.obj
    [("image_digests", JVal.obj (image_digests.map (fun p => (p.1, JVal.str p.2)))),
     ("timestamp", JVal.str (timestampString t))]

/-- Observable outcome of one run of `main`: normal termination with the lines
printed to standard output, the exit code and the document written to the
output path (if any), or an uncaught exception propagating to the top. -/
inductive Outcome where
  | exited (stdout : List String) (code : Nat) (written : Option JVal)
  | raised (e : String)

/-- Embedding of `main`: check that the scenario path exists, parse it with
the TOML loader, collect the digests and write the provenance document,
printing a one-line summary.  The filesystem, the TOML parser, the inspection
command and the clock are parameters. -/
def main_model (env : DockerEnv) (tomlLoads : String → Except String Scenario)
    (now : UTCTime) (readFile : String → Option String)
    (scenarioPath outputPath : String) : Outcome :=
  match readFile scenarioPath with
  | none => Outcome.exited ["Error: " ++ scenarioPath ++ " not found"] 1 none
  | some text =>
      match tomlLoads text with
      | Except.error e => Outcome.raised e
      | Except.ok scenario =>
          match collect_image_digests env scenario with
          | Except.error e => Outcome.raised e
          | Except.ok image_digests =>
              Outcome.exited
                ["Recorded provenance to " ++ outputPath ++ " (" ++
                  toString image_digests.length ++ " images)"]
                0 (some (write_provenance image_digests now))

/-- Shape test for the character list of a timestamp: exactly the pattern
`dddd-dd-ddTdd:dd:ddZ` required by the specification's timestamp expression. -/
def matchTimestamp : List Char → Bool
  | [y1, y2, y3, y4, s1, m1, m2, s2, d1, d2, st, h1, h2, s3, i1, i2, s4, e1, e2, z] =>
      [y1, y2, y3, y4, m1, m2, d1, d2, h1, h2, i1, i2, e1, e2].all Char.isDigit &&
        s1 == '-' && s2 == '-' && st == 'T' && s3 == ':' && s4 == ':' && z == 'Z'
  | _ => false

/-- A string matches the timestamp pattern when its characters do. -/
def isTimestampShape (s : String) : Bool :=
  matchTimestamp s.data

/-- The key a participant entry writes into the digest mapping: its `name`,
provided both fields are present and the `image` is non-empty. -/
def writtenName (p : ParticipantTable) : Option String :=
  match p.name, p.image with
  | some nm, some img => if img ≠ "" then some nm else none
  | _, _ => none

/-- Key-sequence effect of one dict assignment: an existing key is kept in
place, a new key is appended. -/
def insKey (ks : List String) (k : String) : List String :=
  if k ∈ ks then ks else ks ++ [k]

/-- The character list of the pattern `+00:00` removed from the timestamp. -/
def plusData : List Char := ['+', '0', '0', ':', '0', '0']

/-- Runtime environment in which every inspection invocation exits with a
non-zero status. -/
def envFail : DockerEnv := ⟨fun _ _ => none⟩

/-- Runtime environment in which every inspection invocation succeeds and
prints a repo digest followed by a newline. -/
def envRepo : DockerEnv := ⟨fun _ _ => some "sha256:abc\n"⟩

/-- Runtime environment in which only the local-identifier lookup succeeds,
printing an identifier surrounded by spaces. -/
def envLocalOnly : DockerEnv :=
  ⟨fun _ fmt => if fmt = idFormat then some " id1 " else none⟩

/-- Runtime environment in which the repo-digest lookup succeeds with empty
output and the local-identifier lookup fails. -/
def envEmptyRepo : DockerEnv :=
  ⟨fun _ fmt => if fmt = repoDigestsFormat then some "" else none⟩

/-- Scenario with one participant carrying a non-empty image and one carrying
an empty image. -/
def scenTwo : Scenario :=
  ⟨some ⟨some "gimg"⟩, some [⟨some "p1", some "i1"⟩, ⟨some "p2", some ""⟩]⟩

/-- Scenario with two participants sharing the name `dup`. -/
def scenDup : Scenario :=
  ⟨some ⟨some "g"⟩, some [⟨some "dup", some "i1"⟩, ⟨some "dup", some "i2"⟩]⟩

/-- Scenario whose single participant lacks the `image` field. -/
def scenMissingImage : Scenario := ⟨some ⟨some "g"⟩, some [⟨some "p1", none⟩]⟩

/-- Scenario whose second participant lacks the `image` field. -/
def scenMissingImageLater : Scenario :=
  ⟨some ⟨some "g"⟩, some [⟨some "a", some "ia"⟩, ⟨some "b", none⟩]⟩

/-- Scenario with a participant named `green_agent`. -/
def scenGreenP : Scenario := ⟨some ⟨some "g"⟩, some [⟨some "green_agent", some "pimg"⟩]⟩

/-- Scenario whose green agent has an empty image reference. -/
def scenGreenEmpty : Scenario := ⟨some ⟨some ""⟩, some []⟩

/-- A TOML loader that always reports a parse failure. -/
def tomlFailLoads : String → Except String Scenario := fun _ => Except.error "toml"

/-- A filesystem with no files. -/
def emptyFS : String → Option String := fun _ => none

/-- A sample capture instant. -/
def t₀ : UTCTime := ⟨2026, 10, 12, 0, 0, 0⟩

@[simp]
theorem except_bind_ok {α β : Type} (a : α) (f : α → Except String β) :
    (Except.ok a >>= f) = f a := rfl

@[simp]
theorem except_bind_error {α β : Type} (e : String) (f : α → Except String β) :
    ((Except.error e : Except String α) >>= f) = Except.error e := rfl

theorem dictFind_append (m₁ m₂ : List (String × String)) (k : String) :
    dictFind (m₁ ++ m₂) k =
      match dictFind m₁ k with
      | some v => some v
      | none => dictFind m₂ k := by
  induction m₁ with
  | nil => simp [dictFind]
  | cons p rest ih => by_cases h : p.1 = k <;> simp [dictFind, h, ih]

theorem dictFind_map_update (m : List (String × String)) (k v : String) :
    dictFind (m.map (fun p => if p.1 = k then (p.1, v) else p)) k =
      if m.any (fun p => p.1 == k) then some v else none := by
  induction m with
  | nil => simp [dictFind]
  | cons p rest ih =>
      by_cases h : p.1 = k
      · simp [dictFind, h]
      · have hb : (p.1 == k) = false := beq_eq_false_iff_ne.mpr h
        simp only [List.map_cons, List.any_cons, hb, Bool.false_or]
        simp [dictFind, h, ih]

theorem dictFind_map_update_ne (m : List (String × String)) (k k' v : String)
    (hne : k' ≠ k) :
    dictFind (m.map (fun p => if p.1 = k' then (p.1, v) else p)) k = dictFind m k := by
  induction m with
  | nil => simp [dictFind]
  | cons p rest ih =>
      by_cases h : p.1 = k'
      · simp [dictFind, h, hne, ih]
      · simp [dictFind, h, ih]

theorem dictFind_none_of_not_any (m : List (String × String)) (k : String)
    (h : m.any (fun p => p.1 == k) = false) : dictFind m k = none := by
  induction m with
  | nil => rfl
  | cons p rest ih =>
      simp only [List.any_cons, Bool.or_eq_false_iff, beq_eq_false_iff_ne] at h
      simp [dictFind, h.1, ih h.2]

theorem dictFind_dictInsert_self (m : List (String × String)) (k v : String) :
    dictFind (dictInsert m k v) k = some v := by
  unfold dictInsert
  by_cases h : m.any (fun p => p.1 == k)
  · simp [h, dictFind_map_update]
  · rw [if_neg h, dictFind_append,
      dictFind_none_of_not_any m k (Bool.eq_false_iff.mpr h)]
    simp [dictFind]

theorem dictFind_dictInsert_ne (m : List (String × String)) (k k' v : String)
    (hne : k' ≠ k) : dictFind (dictInsert m k' v) k = dictFind m k := by
  unfold dictInsert
  by_cases h : m.any (fun p => p.1 == k')
  · simp [h, dictFind_map_update_ne m k k' v hne]
  · rw [if_neg h, dictFind_append]
    cases hm : dictFind m k <;> simp [dictFind, hne]

theorem map_fst_update (m : List (String × String)) (k v : String) :
    (m.map (fun p => if p.1 = k then (p.1, v) else p)).map Prod.fst = m.map Prod.fst := by
  induction m with
  | nil => rfl
  | cons p rest ih =>
      by_cases h : p.1 = k <;> simp [h, ih]

theorem any_beq_iff (m : List (String × String)) (k : String) :
    m.any (fun p => p.1 == k) = true ↔ k ∈ m.map Prod.fst := by
  simp [List.any_eq_true, List.mem_map]

theorem dictInsert_keys (m : List (String × String)) (k v : String) :
    (dictInsert m k v).map Prod.fst = insKey (m.map Prod.fst) k := by
  unfold dictInsert insKey
  by_cases h : m.any (fun p => p.1 == k)
  · rw [if_pos h, if_pos ((any_beq_iff m k).mp h), map_fst_update]
  · have hk : k ∉ m.map Prod.fst := fun hm => h ((any_beq_iff m k).mpr hm)
    rw [if_neg h, if_neg hk]
    simp

theorem mem_insKey (ks : List String) (k a : String) :
    a ∈ insKey ks k ↔ a ∈ ks ∨ a = k := by
  unfold insKey
  by_cases h : k ∈ ks
  · simp only [if_pos h]
    constructor
    · exact Or.inl
    · rintro (ha | rfl)
      · exact ha
      · exact h
  · simp [if_neg h]

theorem mem_foldl_insKey (l : List String) :
    ∀ (ks : List String) (a : String), a ∈ l.foldl insKey ks ↔ a ∈ ks ∨ a ∈ l := by
  induction l with
  | nil => simp
  | cons k l ih =>
      intro ks a
      rw [List.foldl_cons, ih, mem_insKey]
      simp only [List.mem_cons]
      tauto

theorem foldl_insKey_nodup (l : List String) :
    ∀ ks : List String, l.Nodup → (∀ a ∈ l, a ∉ ks) → l.foldl insKey ks = ks ++ l := by
  induction l with
  | nil => simp
  | cons k l ih =>
      intro ks hnd hdisj
      have hk : k ∉ ks := hdisj k (by simp)
      rw [List.foldl_cons]
      rw [show insKey ks k = ks ++ [k] from if_neg hk]
      rw [ih (ks ++ [k]) (List.nodup_cons.mp hnd).2]
      · simp
      · intro a ha
        simp only [List.mem_append, List.mem_singleton]
        rintro (h | rfl)
        · exact hdisj a (by simp [ha]) h
        · exact (List.nodup_cons.mp hnd).1 ha

theorem writtenName_eq_some_iff (p : ParticipantTable) (nm : String) :
    writtenName p = some nm ↔
      p.name = some nm ∧ ∃ img, p.image = some img ∧ img ≠ "" := by
  cases hn : p.name with
  | none => simp [writtenName, hn]
  | some nm' =>
      cases hi : p.image with
      | none => simp [writtenName, hn, hi]
      | some img =>
          by_cases he : img = "" <;> simp [writtenName, hn, hi, he, And.comm]

theorem participantStep_fields (env : DockerEnv) (acc : List (String × String))
    (p : ParticipantTable) (nm img : String)
    (hn : p.name = some nm) (hi : p.image = some img) :
    participantStep env acc p =
      Except.ok (if img ≠ "" then dictInsert acc nm (get_image_digest env img) else acc) := by
  simp [participantStep, keyed, hn, hi]

theorem participantStep_missing_image (env : DockerEnv) (acc : List (String × String))
    (p : ParticipantTable) (nm : String)
    (hn : p.name = some nm) (hi : p.image = none) :
    participantStep env acc p = Except.error "KeyError: image" := by
  simp [participantStep, keyed, hn, hi]

theorem participantStep_ok_elim (env : DockerEnv) (acc acc' : List (String × String))
    (p : ParticipantTable) (h : participantStep env acc p = Except.ok acc') :
    ∃ nm img, p.name = some nm ∧ p.image = some img ∧
      acc' = if img ≠ "" then dictInsert acc nm (get_image_digest env img) else acc := by
  cases hn : p.name with
  | none => simp [participantStep, keyed, hn] at h
  | some nm =>
      cases hi : p.image with
      | none => simp [participantStep, keyed, hn, hi] at h
      | some img =>
          rw [participantStep_fields env acc p nm img hn hi] at h
          exact ⟨nm, img, rfl, rfl, (Except.ok.injEq _ _).mp h |>.symm⟩

theorem foldlM_ps_nil (env : DockerEnv) (acc : List (String × String)) :
    ([] : List ParticipantTable).foldlM (participantStep env) acc = Except.ok acc := rfl

theorem foldlM_ps_cons (env : DockerEnv) (acc : List (String × String))
    (p : ParticipantTable) (ps : List ParticipantTable) :
    (p :: ps).foldlM (participantStep env) acc =
      (participantStep env acc p) >>= fun acc' => ps.foldlM (participantStep env) acc' := rfl

theorem fold_ok_of_wf (env : DockerEnv) (ps : List ParticipantTable) :
    ∀ acc, (∀ p ∈ ps, p.name.isSome ∧ p.image.isSome) →
      ∃ m, ps.foldlM (participantStep env) acc = Except.ok m := by
  induction ps with
  | nil => exact fun acc _ => ⟨acc, rfl⟩
  | cons p ps ih =>
      intro acc h
      obtain ⟨hn, hi⟩ := h p (by simp)
      obtain ⟨nm, hn'⟩ := Option.isSome_iff_exists.mp hn
      obtain ⟨img, hi'⟩ := Option.isSome_iff_exists.mp hi
      obtain ⟨m, hm⟩ := ih (if img ≠ "" then dictInsert acc nm (get_image_digest env img) else acc)
        (fun q hq => h q (by simp [hq]))
      exact ⟨m, by rw [foldlM_ps_cons, participantStep_fields env acc p nm img hn' hi',
        except_bind_ok, hm]⟩

theorem fold_append_split (env : DockerEnv) (l₁ l₂ : List ParticipantTable) :
    ∀ acc m, (l₁ ++ l₂).foldlM (participantStep env) acc = Except.ok m →
      ∃ mid, l₁.foldlM (participantStep env) acc = Except.ok mid ∧
        l₂.foldlM (participantStep env) mid = Except.ok m := by
  induction l₁ with
  | nil => exact fun acc m h => ⟨acc, rfl, h⟩
  | cons p l₁ ih =>
      intro acc m h
      rw [List.cons_append, foldlM_ps_cons] at h
      cases hs : participantStep env acc p with
      | error e => rw [hs] at h; simp at h
      | ok acc' =>
          rw [hs, except_bind_ok] at h
          obtain ⟨mid, h1, h2⟩ := ih acc' m h
          exact ⟨mid, by rw [foldlM_ps_cons, hs, except_bind_ok, h1], h2⟩

theorem fold_append_of_ok (env : DockerEnv) (l₁ l₂ : List ParticipantTable) :
    ∀ acc mid, l₁.foldlM (participantStep env) acc = Except.ok mid →
      (l₁ ++ l₂).foldlM (participantStep env) acc = l₂.foldlM (participantStep env) mid := by
  induction l₁ with
  | nil =>
      intro acc mid h
      rw [foldlM_ps_nil] at h
      cases h
      rfl
  | cons p l₁ ih =>
      intro acc mid h
      rw [foldlM_ps_cons] at h
      cases hs : participantStep env acc p with
      | error e => rw [hs] at h; simp at h
      | ok acc' =>
          rw [hs, except_bind_ok] at h
          rw [List.cons_append, foldlM_ps_cons, hs, except_bind_ok]
          exact ih acc' mid h

theorem fold_keys (env : DockerEnv) (ps : List ParticipantTable) :
    ∀ acc m, ps.foldlM (participantStep env) acc = Except.ok m →
      m.map Prod.fst = (ps.filterMap writtenName).foldl insKey (acc.map Prod.fst) := by
  induction ps with
  | nil =>
      intro acc m h
      rw [foldlM_ps_nil] at h
      cases h
      simp
  | cons p ps ih =>
      intro acc m h
      rw [foldlM_ps_cons] at h
      cases hs : participantStep env acc p with
      | error e => rw [hs] at h; simp at h
      | ok acc' =>
          rw [hs, except_bind_ok] at h
          obtain ⟨nm, img, hn, hi, hacc'⟩ := participantStep_ok_elim env acc acc' p hs
          by_cases he : img = ""
          · have hw : writtenName p = none := by simp [writtenName, hn, hi, he]
            rw [List.filterMap_cons_none hw]
            rw [ih acc' m h]
            simp [hacc', he]
          · have hw : writtenName p = some nm := by simp [writtenName, hn, hi, he]
            rw [List.filterMap_cons_some hw, List.foldl_cons]
            rw [ih acc' m h]
            rw [show acc' = dictInsert acc nm (get_image_digest env img) by simp [hacc', he]]
            rw [dictInsert_keys]

theorem fold_find_nowrite (env : DockerEnv) (ps : List ParticipantTable) :
    ∀ acc m k, ps.foldlM (participantStep env) acc = Except.ok m →
      (∀ p ∈ ps, writtenName p ≠ some k) → dictFind m k = dictFind acc k := by
  induction ps with
  | nil =>
      intro acc m k h _
      rw [foldlM_ps_nil] at h
      cases h
      rfl
  | cons p ps ih =>
      intro acc m k h hnw
      rw [foldlM_ps_cons] at h
      cases hs : participantStep env acc p with
      | error e => rw [hs] at h; simp at h
      | ok acc' =>
          rw [hs, except_bind_ok] at h
          obtain ⟨nm, img, hn, hi, hacc'⟩ := participantStep_ok_elim env acc acc' p hs
          have hrest := ih acc' m k h (fun q hq => hnw q (by simp [hq]))
          by_cases he : img = ""
          · rw [hrest]; simp [hacc', he]
          · have hw : writtenName p = some nm := by simp [writtenName, hn, hi, he]
            have hne : nm ≠ k := fun hk => hnw p (by simp) (hk ▸ hw)
            rw [hrest, show acc' = dictInsert acc nm (get_image_digest env img) by
              simp [hacc', he]]
            exact dictFind_dictInsert_ne acc k nm (get_image_digest env img) hne

theorem collect_eq (env : DockerEnv) (s : Scenario) (g : GreenAgentTable) (gi : String)
    (hg : s.green_agent = some g) (hgi : g.image = some gi) :
    collect_image_digests env s =
      (s.participants.getD []).foldlM (participantStep env)
        [("green_agent", get_image_digest env gi)] := by
  simp [collect_image_digests, keyed, hg, hgi, dictInsert]

theorem collect_ok_elim (env : DockerEnv) (s : Scenario) (m : List (String × String))
    (h : collect_image_digests env s = Except.ok m) :
    ∃ g gi, s.green_agent = some g ∧ g.image = some gi ∧
      (s.participants.getD []).foldlM (participantStep env)
        [("green_agent", get_image_digest env gi)] = Except.ok m := by
  cases hg : s.green_agent with
  | none => simp [collect_image_digests, keyed, hg] at h
  | some g =>
      cases hgi : g.image with
      | none => simp [collect_image_digests, keyed, hg, hgi] at h
      | some gi => exact ⟨g, gi, rfl, hgi, (collect_eq env s g gi hg hgi) ▸ h⟩

theorem digitChar_ne_plus (n : Nat) (h : n < 10) : Nat.digitChar n ≠ '+' := by
  interval_cases n <;> decide

theorem digitChar_isDigit (n : Nat) (h : n < 10) : (Nat.digitChar n).isDigit = true := by
  interval_cases n <;> decide

theorem replaceAux_skip (l tail : List Char) (h : ∀ c ∈ l, c ≠ '+') :
    replaceAux plusData ['Z'] 0 (l ++ tail) = l ++ replaceAux plusData ['Z'] 0 tail := by
  induction l with
  | nil => rfl
  | cons c l ih =>
      have hc : c ≠ '+' := h c (by simp)
      have hb : ('+' == c) = false := beq_eq_false_iff_ne.mpr (fun he => hc he.symm)
      have hpre : plusData.isPrefixOf (c :: (l ++ tail)) = false := by
        simp only [plusData, List.isPrefixOf, hb, Bool.false_and]
      rw [List.cons_append]
      rw [show replaceAux plusData ['Z'] 0 (c :: (l ++ tail)) =
        if plusData.isPrefixOf (c :: (l ++ tail)) then
          ['Z'] ++ replaceAux plusData ['Z'] (plusData.length - 1) (l ++ tail)
        else c :: replaceAux plusData ['Z'] 0 (l ++ tail) from rfl]
      rw [hpre]
      simp only [Bool.false_eq_true, if_false]
      rw [ih (fun a ha => h a (by simp [ha]))]
      simp

theorem timestamp_shape (t : UTCTime) (hy : t.year < 10000) (hmo : t.month < 100)
    (hd : t.day < 100) (hh : t.hour < 100) (hmi : t.minute < 100) (hs : t.second < 100) :
    isTimestampShape (timestampString t) = true := by
  have hdata : (isoformatSeconds t).data =
      [Nat.digitChar (t.year / 1000), Nat.digitChar (t.year / 100 % 10),
       Nat.digitChar (t.year / 10 % 10), Nat.digitChar (t.year % 10), '-',
       Nat.digitChar (t.month / 10), Nat.digitChar (t.month % 10), '-',
       Nat.digitChar (t.day / 10), Nat.digitChar (t.day % 10), 'T',
       Nat.digitChar (t.hour / 10), Nat.digitChar (t.hour % 10), ':',
       Nat.digitChar (t.minute / 10), Nat.digitChar (t.minute % 10), ':',
       Nat.digitChar (t.second / 10), Nat.digitChar (t.second % 10)] ++ plusData := rfl
  have hskip : (timestampString t).data =
      [Nat.digitChar (t.year / 1000), Nat.digitChar (t.year / 100 % 10),
       Nat.digitChar (t.year / 10 % 10), Nat.digitChar (t.year % 10), '-',
       Nat.digitChar (t.month / 10), Nat.digitChar (t.month % 10), '-',
       Nat.digitChar (t.day / 10), Nat.digitChar (t.day % 10), 'T',
       Nat.digitChar (t.hour / 10), Nat.digitChar (t.hour % 10), ':',
       Nat.digitChar (t.minute / 10), Nat.digitChar (t.minute % 10), ':',
       Nat.digitChar (t.second / 10), Nat.digitChar (t.second % 10), 'Z'] := by
    show (pyReplace (isoformatSeconds t) "+00:00" "Z").data = _
    unfold pyReplace
    rw [show ("+00:00" : String).data = plusData from rfl, show ("Z" : String).data = ['Z'] from rfl]
    show replaceAux plusData ['Z'] 0 (isoformatSeconds t).data = _
    rw [hdata, replaceAux_skip]
    · rfl
    · intro c hc
      simp only [List.mem_cons, List.not_mem_nil, or_false] at hc
      rcases hc with rfl | rfl | rfl | rfl | rfl | rfl | rfl | rfl | rfl | rfl | rfl |
        rfl | rfl | rfl | rfl | rfl | rfl | rfl | rfl <;>
        first
          | decide
          | (apply digitChar_ne_plus ; omega)
  unfold isTimestampShape
  rw [hskip]
  show ([Nat.digitChar (t.year / 1000), Nat.digitChar (t.year / 100 % 10),
      Nat.digitChar (t.year / 10 % 10), Nat.digitChar (t.year % 10),
      Nat.digitChar (t.month / 10), Nat.digitChar (t.month % 10),
      Nat.digitChar (t.day / 10), Nat.digitChar (t.day % 10),
      Nat.digitChar (t.hour / 10), Nat.digitChar (t.hour % 10),
      Nat.digitChar (t.minute / 10), Nat.digitChar (t.minute % 10),
      Nat.digitChar (t.second / 10), Nat.digitChar (t.second % 10)].all Char.isDigit &&
      ('-' == '-') && ('-' == '-') && ('T' == 'T') && (':' == ':') && (':' == ':') &&
      ('Z' == 'Z')) = true
  simp only [List.all_cons, List.all_nil, Bool.and_true, Bool.and_eq_true,
    beq_self_eq_true, and_true, true_and]
  and_intros <;> (apply digitChar_isDigit ; omega)

/-- C1: for every image reference, the digest resolver follows the
first-success-wins fallback: a zero-exit repo-digest lookup with non-empty
stripped output is returned stripped; otherwise a zero-exit local-identifier
lookup is returned stripped (even when empty); and when both invocations exit
non-zero the sentinel `unknown:` followed by the image reference is
returned. -/
theorem get_image_digest_fallback_chain (env : DockerEnv) (image : String) :
    (∀ out, env.inspect image repoDigestsFormat = some out → pyStrip out ≠ "" →
      get_image_digest env image = pyStrip out) ∧
    ((env.inspect image repoDigestsFormat = none ∨
        ∃ out, env.inspect image repoDigestsFormat = some out ∧ pyStrip out = "") →
      ∀ out₂, env.inspect image idFormat = some out₂ →
        get_image_digest env image = pyStrip out₂) ∧
    (env.inspect image repoDigestsFormat = none → env.inspect image idFormat = none →
      get_image_digest env image = "unknown:" ++ image) := by
  refine ⟨?_, ?_, ?_⟩
  · intro out h hne
    simp [get_image_digest, h, hne]
  · rintro (h1 | ⟨out, h1, he⟩) out₂ h2
    · simp [get_image_digest, h1, h2]
    · simp [get_image_digest, h1, he, h2]
  · intro h1 h2
    simp [get_image_digest, h1, h2]

/-- Witness for C1: the three fallback branches evaluated on concrete
environments. -/
theorem get_image_digest_fallback_chain_witness :
    get_image_digest envRepo "img" = "sha256:abc" ∧
    get_image_digest envLocalOnly "img" = "id1" ∧
    get_image_digest envFail "img" = "unknown:img" := by
  refine ⟨?_, ?_, ?_⟩
  · exact ((get_image_digest_fallback_chain envRepo "img").1
      "sha256:abc\n" rfl (by decide)).trans (by decide)
  · exact ((get_image_digest_fallback_chain envLocalOnly "img").2.1
      (Or.inl rfl) " id1 " rfl).trans (by decide)
  · exact (get_image_digest_fallback_chain envFail "img").2.2 rfl rfl

/-- C3 counterexample: when the repo-digest lookup succeeds with empty output
and the local-identifier lookup fails, the resolver returns the sentinel even
though not both inspection attempts failed (the first one exited with status
zero). -/
theorem resolver_sentinel_despite_first_success :
    get_image_digest envEmptyRepo "img" = "unknown:img" ∧
    envEmptyRepo.inspect "img" repoDigestsFormat = some "" := ⟨rfl, rfl⟩

/-- C3 (amended): the resolver is total — it always returns either a
stripped inspection output or the sentinel — and it returns the sentinel
`unknown:` followed by the image exactly when the local-identifier attempt
fails and the repo-digest attempt either fails or yields whitespace-only
output. -/
theorem resolver_total_with_sentinel (env : DockerEnv) (image : String) :
    ((env.inspect image idFormat = none ∧
        (env.inspect image repoDigestsFormat = none ∨
          ∃ out, env.inspect image repoDigestsFormat = some out ∧ pyStrip out = "")) →
      get_image_digest env image = "unknown:" ++ image) ∧
    (∀ out, env.inspect image repoDigestsFormat = some out → pyStrip out ≠ "" →
      get_image_digest env image = pyStrip out) ∧
    (∀ out₂, env.inspect image idFormat = some out₂ →
      (env.inspect image repoDigestsFormat = none ∨
        ∃ out, env.inspect image repoDigestsFormat = some out ∧ pyStrip out = "") →
      get_image_digest env image = pyStrip out₂) ∧
    (get_image_digest env image = "unknown:" ++ image ∨
      ∃ out, (env.inspect image repoDigestsFormat = some out ∨
          env.inspect image idFormat = some out) ∧
        get_image_digest env image = pyStrip out) := by
  refine ⟨?_, ?_, ?_, ?_⟩
  · rintro ⟨h2, h1 | ⟨out, h1, he⟩⟩
    · simp [get_image_digest, h1, h2]
    · simp [get_image_digest, h1, he, h2]
  · intro out h hne
    simp [get_image_digest, h, hne]
  · rintro out₂ h2 (h1 | ⟨out, h1, he⟩)
    · simp [get_image_digest, h1, h2]
    · simp [get_image_digest, h1, he, h2]
  · cases h1 : env.inspect image repoDigestsFormat with
    | none =>
        cases h2 : env.inspect image idFormat with
        | none => exact Or.inl (by simp [get_image_digest, h1, h2])
        | some out₂ => exact Or.inr ⟨out₂, Or.inr rfl, by simp [get_image_digest, h1, h2]⟩
    | some out =>
        by_cases he : pyStrip out = ""
        · cases h2 : env.inspect image idFormat with
          | none => exact Or.inl (by simp [get_image_digest, h1, he, h2])
          | some out₂ => exact Or.inr ⟨out₂, Or.inr rfl, by simp [get_image_digest, h1, he, h2]⟩
        · exact Or.inr ⟨out, Or.inl rfl, by simp [get_image_digest, h1, he]⟩

/-- Witness for the amended C3: the sentinel branch and an output branch
evaluated on concrete environments. -/
theorem resolver_total_with_sentinel_witness :
    get_image_digest envFail "img" = "unknown:img" ∧
    get_image_digest envEmptyRepo "other" = "unknown:other" ∧
    get_image_digest envRepo "img" = "sha256:abc" := by
  refine ⟨?_, ?_, ?_⟩
  · exact (resolver_total_with_sentinel envFail "img").1 ⟨rfl, Or.inl rfl⟩
  · exact (resolver_total_with_sentinel envEmptyRepo "other").1 ⟨rfl, Or.inr ⟨"", rfl, rfl⟩⟩
  · exact ((resolver_total_with_sentinel envRepo "img").2.1
      "sha256:abc\n" rfl (by decide)).trans (by decide)

/-- C2: with a valid green-agent image and well-formed participant entries,
the collected mapping has a `green_agent` key, a key for the name of every
participant with a non-empty image, and no key other than those. -/
theorem collect_keys_coverage (env : DockerEnv) (s : Scenario) (g : GreenAgentTable)
    (gi : String) (hg : s.green_agent = some g) (hgi : g.image = some gi)
    (hwf : ∀ p ∈ s.participants.getD [], p.name.isSome ∧ p.image.isSome) :
    ∃ m, collect_image_digests env s = Except.ok m ∧
      "green_agent" ∈ m.map Prod.fst ∧
      (∀ p ∈ s.participants.getD [], ∀ nm img, p.name = some nm → p.image = some img →
        img ≠ "" → nm ∈ m.map Prod.fst) ∧
      (∀ k, k ∈ m.map Prod.fst → k = "green_agent" ∨
        ∃ p ∈ s.participants.getD [], p.name = some k ∧
          ∃ img, p.image = some img ∧ img ≠ "") := by
  obtain ⟨m, hm⟩ := fold_ok_of_wf env (s.participants.getD [])
    [("green_agent", get_image_digest env gi)] hwf
  have hcol : collect_image_digests env s = Except.ok m := by
    rw [collect_eq env s g gi hg hgi]; exact hm
  have hkeys := fold_keys env (s.participants.getD []) _ m hm
  refine ⟨m, hcol, ?_, ?_, ?_⟩
  · rw [hkeys, mem_foldl_insKey]
    left; simp
  · intro p hp nm img hn hi hne
    rw [hkeys, mem_foldl_insKey]
    right
    exact List.mem_filterMap.mpr ⟨p, hp, (writtenName_eq_some_iff p nm).mpr ⟨hn, img, hi, hne⟩⟩
  · intro k hk
    rw [hkeys, mem_foldl_insKey] at hk
    rcases hk with hk | hk
    · left; simpa using hk
    · right
      obtain ⟨p, hp, hw⟩ := List.mem_filterMap.mp hk
      obtain ⟨hn, img, hi, hne⟩ := (writtenName_eq_some_iff p k).mp hw
      exact ⟨p, hp, hn, img, hi, hne⟩

/-- Witness for C2: key coverage on a scenario with one non-empty-image and
one empty-image participant. -/
theorem collect_keys_coverage_witness :
    ∃ m, collect_image_digests envFail scenTwo = Except.ok m ∧
      "green_agent" ∈ m.map Prod.fst ∧
      (∀ p ∈ scenTwo.participants.getD [], ∀ nm img, p.name = some nm → p.image = some img →
        img ≠ "" → nm ∈ m.map Prod.fst) ∧
      (∀ k, k ∈ m.map Prod.fst → k = "green_agent" ∨
        ∃ p ∈ scenTwo.participants.getD [], p.name = some k ∧
          ∃ img, p.image = some img ∧ img ≠ "") :=
  collect_keys_coverage envFail scenTwo ⟨some "gimg"⟩ "gimg" rfl rfl (by decide)

/-- C4: when two participants share a name, both with non-empty images, and
no later participant writes that name again, the mapping holds the digest of
the later entry (last-write-wins). -/
theorem collect_last_write_wins (env : DockerEnv) (s : Scenario)
    (l₀ l₁ l₂ : List ParticipantTable) (q p : ParticipantTable)
    (nm img img' : String) (m : List (String × String))
    (hps : s.participants.getD [] = l₀ ++ q :: l₁ ++ p :: l₂)
    (hqn : q.name = some nm) (hqi : q.image = some img') (hqne : img' ≠ "")
    (hpn : p.name = some nm) (hpi : p.image = some img) (hpne : img ≠ "")
    (hlast : ∀ r ∈ l₂, writtenName r ≠ some nm)
    (hok : collect_image_digests env s = Except.ok m) :
    dictFind m nm = some (get_image_digest env img) := by
  obtain ⟨g, gi, hg, hgi, hfold⟩ := collect_ok_elim env s m hok
  rw [hps] at hfold
  rw [show l₀ ++ q :: l₁ ++ p :: l₂ = (l₀ ++ q :: l₁) ++ (p :: l₂) by simp] at hfold
  obtain ⟨mid, h1, h2⟩ := fold_append_split env (l₀ ++ q :: l₁) (p :: l₂) _ m hfold
  rw [foldlM_ps_cons, participantStep_fields env mid p nm img hpn hpi,
    except_bind_ok, if_pos hpne] at h2
  rw [fold_find_nowrite env l₂ _ m nm h2 hlast]
  exact dictFind_dictInsert_self mid nm (get_image_digest env img)

/-- Witness for C4: two participants named `dup`; the mapping holds the
digest of the second one's image. -/
theorem collect_last_write_wins_witness :
    dictFind [("green_agent", "unknown:g"), ("dup", "unknown:i2")] "dup" =
      some (get_image_digest envFail "i2") :=
  collect_last_write_wins envFail scenDup [] [] [] ⟨some "dup", some "i1"⟩
    ⟨some "dup", some "i2"⟩ "dup" "i2" "i1"
    [("green_agent", "unknown:g"), ("dup", "unknown:i2")]
    rfl rfl rfl (by decide) rfl rfl (by decide) (by simp) rfl

/-- C7: when the written participant names are pairwise distinct and none is
`green_agent`, the key order of the collected mapping is `green_agent`
followed by the names of the non-empty-image participants in configuration
order. -/
theorem collect_insertion_order (env : DockerEnv) (s : Scenario)
    (m : List (String × String))
    (hnodup : ((s.participants.getD []).filterMap writtenName).Nodup)
    (hng : "green_agent" ∉ (s.participants.getD []).filterMap writtenName)
    (hok : collect_image_digests env s = Except.ok m) :
    m.map Prod.fst = "green_agent" :: (s.participants.getD []).filterMap writtenName := by
  obtain ⟨g, gi, hg, hgi, hfold⟩ := collect_ok_elim env s m hok
  have hkeys := fold_keys env (s.participants.getD []) _ m hfold
  rw [hkeys]
  have hdisj : ∀ a ∈ (s.participants.getD []).filterMap writtenName,
      a ∉ (["green_agent"] : List String) := by
    intro a ha hmem
    simp only [List.mem_singleton] at hmem
    exact hng (hmem ▸ ha)
  rw [show ([("green_agent", get_image_digest env gi)]).map Prod.fst =
    ["green_agent"] from rfl]
  rw [foldl_insKey_nodup _ _ hnodup hdisj]
  rfl

/-- Witness for C7: key order on a scenario with one non-empty-image and one
empty-image participant. -/
theorem collect_insertion_order_witness :
    ([("green_agent", "unknown:gimg"), ("p1", "unknown:i1")] :
        List (String × String)).map Prod.fst =
      "green_agent" :: (scenTwo.participants.getD []).filterMap writtenName :=
  collect_insertion_order envFail scenTwo
    [("green_agent", "unknown:gimg"), ("p1", "unknown:i1")] (by decide) (by decide) rfl

/-- C9: a participant entry named `green_agent` with a non-empty image (and
no later writer of that key) overwrites the digest resolved for the green
agent's own image: the mapping's `green_agent` entry holds that participant's
digest. -/
theorem participant_overwrites_green (env : DockerEnv) (s : Scenario)
    (l₁ l₂ : List ParticipantTable) (p : ParticipantTable) (img : String)
    (m : List (String × String))
    (hps : s.participants.getD [] = l₁ ++ p :: l₂)
    (hpn : p.name = some "green_agent") (hpi : p.image = some img) (hpne : img ≠ "")
    (hlast : ∀ r ∈ l₂, writtenName r ≠ some "green_agent")
    (hok : collect_image_digests env s = Except.ok m) :
    dictFind m "green_agent" = some (get_image_digest env img) := by
  obtain ⟨g, gi, hg, hgi, hfold⟩ := collect_ok_elim env s m hok
  rw [hps] at hfold
  obtain ⟨mid, h1, h2⟩ := fold_append_split env l₁ (p :: l₂) _ m hfold
  rw [foldlM_ps_cons, participantStep_fields env mid p "green_agent" img hpn hpi,
    except_bind_ok, if_pos hpne] at h2
  rw [fold_find_nowrite env l₂ _ m "green_agent" h2 hlast]
  exact dictFind_dictInsert_self mid "green_agent" (get_image_digest env img)

/-- Witness for C9: a single participant named `green_agent` whose digest
replaces the green agent's own. -/
theorem participant_overwrites_green_witness :
    dictFind [("green_agent", "unknown:pimg")] "green_agent" =
      some (get_image_digest envFail "pimg") :=
  participant_overwrites_green envFail scenGreenP [] []
    ⟨some "green_agent", some "pimg"⟩ "pimg" [("green_agent", "unknown:pimg")]
    rfl rfl rfl (by decide) (by simp) rfl

/-- C10: the empty-image skip rule applies only to participants: an empty
green-agent image is still dispatched to the resolver and the mapping binds
`green_agent` to the resolver's result for the empty reference. -/
theorem green_empty_image_still_mapped (env : DockerEnv) (s : Scenario)
    (g : GreenAgentTable) (m : List (String × String))
    (hg : s.green_agent = some g) (hgi : g.image = some "")
    (hnp : ∀ p ∈ s.participants.getD [], writtenName p ≠ some "green_agent")
    (hok : collect_image_digests env s = Except.ok m) :
    dictFind m "green_agent" = some (get_image_digest env "") := by
  obtain ⟨g', gi, hg', hgi', hfold⟩ := collect_ok_elim env s m hok
  rw [hg] at hg'
  injection hg' with hgg
  subst hgg
  rw [hgi] at hgi'
  injection hgi' with hgg'
  subst hgg'
  rw [fold_find_nowrite env _ _ m "green_agent" hfold hnp]
  simp [dictFind]

/-- Witness for C10: a scenario whose green agent has an empty image; the
mapping still holds a `green_agent` key with the resolver's result for the
empty string. -/
theorem green_empty_image_still_mapped_witness :
    dictFind [("green_agent", "unknown:")] "green_agent" =
      some (get_image_digest envFail "") :=
  green_empty_image_still_mapped envFail scenGreenEmpty ⟨some ""⟩
    [("green_agent", "unknown:")] rfl rfl (by decide) rfl

/-- C8 counterexample: a participant entry with a `name` but no `image` field
makes digest collection raise `KeyError` instead of being treated as an
empty-image skip; no mapping is produced. -/
theorem missing_image_field_raises_cex :
    collect_image_digests envFail scenMissingImage = Except.error "KeyError: image" ∧
    ∀ m, collect_image_digests envFail scenMissingImage ≠ Except.ok m := by
  constructor
  · rfl
  · intro m h
    rw [show collect_image_digests envFail scenMissingImage =
      Except.error "KeyError: image" from rfl] at h
    exact Except.noConfusion h

/-- C8 (amended): a participant entry must carry an `image` field; only an
explicitly empty image string is a skip signal, while a missing `image` field
makes collection fail with an uncaught `KeyError`. -/
theorem missing_image_field_raises (env : DockerEnv) (s : Scenario)
    (g : GreenAgentTable) (gi : String) (l₁ l₂ : List ParticipantTable)
    (p : ParticipantTable) (nm : String)
    (hg : s.green_agent = some g) (hgi : g.image = some gi)
    (hps : s.participants.getD [] = l₁ ++ p :: l₂)
    (hwf : ∀ q ∈ l₁, q.name.isSome ∧ q.image.isSome)
    (hpn : p.name = some nm) (hpi : p.image = none) :
    collect_image_digests env s = Except.error "KeyError: image" := by
  rw [collect_eq env s g gi hg hgi, hps]
  obtain ⟨mid, hmid⟩ := fold_ok_of_wf env l₁ [("green_agent", get_image_digest env gi)] hwf
  rw [fold_append_of_ok env l₁ (p :: l₂) _ mid hmid]
  rw [foldlM_ps_cons, participantStep_missing_image env mid p nm hpn hpi]
  rfl

/-- Witness for the amended C8: the second participant lacks the `image`
field and collection raises `KeyError`. -/
theorem missing_image_field_raises_witness :
    collect_image_digests envFail scenMissingImageLater = Except.error "KeyError: image" :=
  missing_image_field_raises envFail scenMissingImageLater ⟨some "g"⟩ "g"
    [⟨some "a", some "ia"⟩] [] ⟨some "b", none⟩ "b" rfl rfl rfl (by decide) rfl rfl

/-- C6: when the scenario path does not exist, `main` prints the one-line
message `Error: <path> not found` to standard output, exits with code 1, and
writes no output file. -/
theorem missing_scenario_path (env : DockerEnv)
    (tomlLoads : String → Except String Scenario) (now : UTCTime)
    (readFile : String → Option String) (scenarioPath outputPath : String)
    (h : readFile scenarioPath = none) :
    main_model env tomlLoads now readFile scenarioPath outputPath =
      Outcome.exited ["Error: " ++ scenarioPath ++ " not found"] 1 none := by
  unfold main_model
  rw [h]

/-- Witness for C6: a run against an empty filesystem. -/
theorem missing_scenario_path_witness :
    main_model envFail tomlFailLoads t₀ emptyFS "scenario.toml" "out.json" =
      Outcome.exited ["Error: scenario.toml not found"] 1 none :=
  (missing_scenario_path envFail tomlFailLoads t₀ emptyFS "scenario.toml" "out.json"
    rfl).trans rfl

/-- C5: for a valid capture instant, the provenance document is a JSON object
with exactly the two top-level keys `image_digests` (the mapping, as an
object) and `timestamp` (a string of shape `dddd-dd-ddTdd:dd:ddZ`). -/
theorem provenance_document_shape (image_digests : List (String × String)) (t : UTCTime)
    (hy : t.year < 10000) (hmo : t.month < 100) (hd : t.day < 100)
    (hh : t.hour < 100) (hmi : t.minute < 100) (hs : t.second < 100) :
    ∃ ds ts, write_provenance image_digests t =
        JVal.obj [("image_digests", JVal.obj ds), ("timestamp", JVal.str ts)] ∧
      ds = image_digests.map (fun p => (p.1, JVal.str p.2)) ∧
      isTimestampShape ts = true :=
  ⟨_, _, rfl, rfl, timestamp_shape t hy hmo hd hh hmi hs⟩

/-- Witness for C5: the document written for a one-entry mapping at the
sample instant. -/
theorem provenance_document_shape_witness :
    ∃ ds ts, write_provenance [("green_agent", "unknown:g")] t₀ =
        JVal.obj [("image_digests", JVal.obj ds), ("timestamp", JVal.str ts)] ∧
      ds = [("green_agent", "unknown:g")].map (fun p => (p.1, JVal.str p.2)) ∧
      isTimestampShape ts = true :=
  provenance_document_shape [("green_agent", "unknown:g")] t₀
    (by decide) (by decide) (by decide) (by decide) (by decide) (by decide)

end RecordProvenance
